import Mathlib

/-
Verification of the exception-dispatch and stack-unwinding subsystem of the
SVSM kernel excerpt: a shallow embedding of
  - kernel/src/debug/stacktrace.rs (StackUnwinder, print_stack),
  - src/cpu/idt/stage2.rs (init_idt, early_idt_init{,_no_ghcb}, the two
    generic IDT dispatchers),
  - src/greq/services.rs (get_report, get_regular_report, get_extended_report),
together with proofs about the embedded definitions.

Machine integers (usize / u64 virtual addresses) are modelled as Nat with an
explicit 2^64 bound where overflow is relevant.  Raw memory is a function from
byte addresses to the 64-bit word a pointer-sized read at that address yields.
-/

/-- Number of values of a 64-bit machine word: a usize addition overflows
exactly when the mathematical sum is not below this bound. -/
def USIZE_LIMIT : Nat := 2 ^ 64

/-- Size in bytes of a pointer / VirtAddr on x86-64. -/
def PTR_SIZE : Nat := 8

/-- Modelled from the spec: `MemoryRegion` lives in utils/memory_region.rs,
which is not part of the excerpt.  Per the spec it is a half-open address
range `{start, end}` with point containment, sub-region containment, and a
base+length constructor that fails on overflow.  (`end` is a Lean keyword,
so the field is named `endAddr`.) -/
structure MemoryRegion where
  start : Nat
  endAddr : Nat
deriving DecidableEq, Repr

/-- Modelled from the spec: point containment in a half-open region. -/
def MemoryRegion.contains (r : MemoryRegion) (a : Nat) : Bool :=
  decide (r.start ≤ a ∧ a < r.endAddr)

/-- Modelled from the spec: sub-region containment in a half-open region. -/
def MemoryRegion.contains_region (r : MemoryRegion) (o : MemoryRegion) : Bool :=
  decide (r.start ≤ o.start ∧ o.endAddr ≤ r.endAddr)

/-- Modelled from the spec: construction from a base and a length, failing
when `base + len` would overflow a usize. -/
def MemoryRegion.checked_new (base len : Nat) : Option MemoryRegion :=
  if base + len < USIZE_LIMIT then some ⟨base, base + len⟩ else none

/-- Raw memory: the 64-bit value an unaligned pointer-sized read at a given
byte address yields. -/
abbrev Memory := Nat → Nat

/-- Reading a `VirtAddr` out of raw memory yields a value below 2^64. -/
def readV (m : Memory) (a : Nat) : Nat := m a % USIZE_LIMIT

/-- Modelled from the spec: `is_exception_handler_return_site` (in
cpu/idt/common.rs, not part of the excerpt) reports whether an instruction
pointer equals one of the statically known trampoline-resume addresses.  The
unwinder is parametrised over this classifier. -/
abbrev ExcSites := Nat → Bool

/-- Modelled from the spec: byte size of `X86ExceptionContext` — fifteen
pushed general-purpose registers, vector, error code, and the five-word
hardware trap frame (`rip, cs, rflags, rsp, ss`): 22 words of 8 bytes. -/
def X86ExceptionContextSize : Nat := 176

/-- Modelled from the spec: byte offset of the saved `rbp` inside
`X86ExceptionContext` (eighth-lowest of the fifteen pushed registers). -/
def CTX_RBP_OFFSET : Nat := 64

/-- Modelled from the spec: byte offset of `frame.rip` inside
`X86ExceptionContext` (just past the registers, vector and error code). -/
def CTX_RIP_OFFSET : Nat := 136

/-- Modelled from the spec: byte offset of `frame.rsp` inside
`X86ExceptionContext`. -/
def CTX_RSP_OFFSET : Nat := 160

/-- Embeds `StackFrame` from stacktrace.rs. -/
structure StackFrame where
  rbp : Nat
  rsp : Nat
  rip : Nat
  is_last : Bool
  is_exception_frame : Bool
  _stack_depth : Nat
deriving DecidableEq, Repr

/-- Embeds `UnwoundStackFrame` from stacktrace.rs. -/
inductive UnwoundStackFrame where
  | Valid (frame : StackFrame)
  | Invalid
deriving DecidableEq, Repr

/-- Embeds `StacksBounds`; the source fixes the array length to three, the
model allows any list of regions (the theorems instantiate it at three). -/
abbrev StacksBounds := List MemoryRegion

/-- Embeds `StackUnwinder`'s iterator state. -/
structure StackUnwinder where
  next_frame : Option UnwoundStackFrame
  stackBounds : StacksBounds
deriving DecidableEq, Repr

/-- Embeds `StackUnwinder::frame_is_last`. -/
def StackUnwinder.frame_is_last (rbp : Nat) : Bool := rbp == 0

/-- Embeds `StackUnwinder::check_unwound_frame`. -/
def StackUnwinder.check_unwound_frame (e : ExcSites) (rbp rsp rip : Nat)
    (stackBounds : StacksBounds) : UnwoundStackFrame :=
  match stackBounds.find? (fun stack => stack.contains rsp) with
  | none => .Invalid
  | some stack =>
    let is_last := StackUnwinder.frame_is_last rbp
    let is_exception_frame := e rip
    if !is_last && !is_exception_frame && decide (rbp < rsp) then
      .Invalid
    else
      .Valid { rbp := rbp, rip := rip, rsp := rsp, is_last := is_last,
               is_exception_frame := is_exception_frame,
               _stack_depth := stack.endAddr - rsp }

/-- Embeds `StackUnwinder::unwind_framepointer_frame`. -/
def StackUnwinder.unwind_framepointer_frame (m : Memory) (e : ExcSites)
    (rbp : Nat) (stackBounds : StacksBounds) : UnwoundStackFrame :=
  let rsp := rbp
  match MemoryRegion.checked_new rsp (2 * PTR_SIZE) with
  | none => .Invalid
  | some range =>
    if !(stackBounds.any fun stack => stack.contains_region range) then
      .Invalid
    else
      let rbp2 := readV m rsp
      let rsp2 := rsp + PTR_SIZE
      let rip := readV m rsp2
      let rsp3 := rsp2 + PTR_SIZE
      StackUnwinder.check_unwound_frame e rbp2 rsp3 rip stackBounds

/-- Embeds `StackUnwinder::unwind_exception_frame`. -/
def StackUnwinder.unwind_exception_frame (m : Memory) (e : ExcSites)
    (rsp : Nat) (stackBounds : StacksBounds) : UnwoundStackFrame :=
  match MemoryRegion.checked_new rsp X86ExceptionContextSize with
  | none => .Invalid
  | some range =>
    if !(stackBounds.any fun stack => stack.contains_region range) then
      .Invalid
    else
      let rbp := readV m (rsp + CTX_RBP_OFFSET)
      let rip := readV m (rsp + CTX_RIP_OFFSET)
      let rsp2 := readV m (rsp + CTX_RSP_OFFSET)
      StackUnwinder.check_unwound_frame e rbp rsp2 rip stackBounds

/-- Embeds `StackUnwinder::new`: the first frame is computed by walking from
the initial frame-pointer value. -/
def StackUnwinder.new (m : Memory) (e : ExcSites) (rbp : Nat)
    (stackBounds : StacksBounds) : StackUnwinder :=
  { next_frame := some (StackUnwinder.unwind_framepointer_frame m e rbp stackBounds),
    stackBounds := stackBounds }

/-- Embeds `<StackUnwinder as Iterator>::next`: returns the yielded item and
the successor state. -/
def StackUnwinder.next (m : Memory) (e : ExcSites) (s : StackUnwinder) :
    Option UnwoundStackFrame × StackUnwinder :=
  match s.next_frame with
  | none => (none, s)
  | some cur =>
    let nf : Option UnwoundStackFrame :=
      match cur with
      | .Invalid => none
      | .Valid cur_frame =>
        if cur_frame.is_last then
          none
        else if cur_frame.is_exception_frame then
          some (StackUnwinder.unwind_exception_frame m e cur_frame.rsp s.stackBounds)
        else
          some (StackUnwinder.unwind_framepointer_frame m e cur_frame.rbp s.stackBounds)
    (some cur, { s with next_frame := nf })

/-- The state transition of one iterator step. -/
def StackUnwinder.step (m : Memory) (e : ExcSites) (s : StackUnwinder) :
    StackUnwinder :=
  (s.next m e).2

/-- The iterator is exhausted after finitely many steps. -/
def StackUnwinder.Terminates (m : Memory) (e : ExcSites) (s : StackUnwinder) :
    Prop :=
  ∃ n, ((StackUnwinder.step m e)^[n] s).next_frame = none

/-- The list of items the iterator yields within the first `n` calls. -/
def StackUnwinder.itemsUpTo (m : Memory) (e : ExcSites) :
    Nat → StackUnwinder → List UnwoundStackFrame
  | 0, _ => []
  | n + 1, s =>
    match s.next_frame with
    | none => []
    | some fr => fr :: StackUnwinder.itemsUpTo m e n (s.step m e)

/-- One diagnostic line emitted by `print_stack`. -/
inductive LogLine where
  | backtraceStart
  | frameLine (rip : Nat)
  | invalidLine
  | backtraceEnd
deriving DecidableEq, Repr

/-- How `print_stack` renders one yielded item. -/
def renderFrame : UnwoundStackFrame → LogLine
  | .Valid item => .frameLine item.rip
  | .Invalid => .invalidLine

/-- The body of `print_stack`'s `for` loop: log each remaining item until the
iterator is exhausted (`fuel` bounds the number of iterations; for a
terminating sequence any sufficient fuel yields the same output). -/
def printLoop (m : Memory) (e : ExcSites) :
    Nat → StackUnwinder → List LogLine
  | 0, _ => []
  | fuel + 1, s =>
    match s.next m e with
    | (none, _) => []
    | (some fr, s2) => renderFrame fr :: printLoop m e fuel s2

/-- Embeds `print_stack(skip)`: a start marker, then the items of the unwind
sequence with the first `skip` discarded (the `.skip(skip)` adapter advances
the iterator `skip` times before the loop), then an end marker.  The unwinder
construction is parametrised by the initial frame-pointer value and the three
stack regions that `unwind_this_cpu` obtains from hardware and per-CPU
state. -/
def print_stack (m : Memory) (e : ExcSites) (skip : Nat) (rbp : Nat)
    (stackBounds : StacksBounds) (fuel : Nat) : List LogLine :=
  let unwinder := StackUnwinder.new m e rbp stackBounds
  [LogLine.backtraceStart]
    ++ printLoop m e fuel ((StackUnwinder.step m e)^[skip] unwinder)
    ++ [LogLine.backtraceEnd]

/-- Largest region end among the configured stackBounds; every valid frame's `rsp`
lies strictly below it, which bounds the length of frame-pointer walks. -/
def maxEnd (stackBounds : StacksBounds) : Nat :=
  stackBounds.foldr (fun r acc => max r.endAddr acc) 0

/-- Termination measure on iterator states for exception-free walks. -/
def stateMeasure (stackBounds : StacksBounds) : Option UnwoundStackFrame → Nat
  | none => 0
  | some .Invalid => 1
  | some (.Valid f) => if f.is_last then 1 else 2 + (maxEnd stackBounds - f.rsp)

/-- A frame's `rsp` lies on one of the configured stackBounds; every frame that
`check_unwound_frame` classifies `Valid` satisfies this. -/
def FrameOnStack (stackBounds : StacksBounds) (f : StackFrame) : Prop :=
  ∃ st ∈ stackBounds, st.contains f.rsp = true

/-- Modelled from the spec: the fifteen general-purpose registers the shared
trampoline prologue pushes (cpu/idt/common.rs is not part of the excerpt). -/
structure X86GeneralRegs where
  r15 : Nat
  r14 : Nat
  r13 : Nat
  r12 : Nat
  r11 : Nat
  r10 : Nat
  r9 : Nat
  r8 : Nat
  rbp : Nat
  rdi : Nat
  rsi : Nat
  rdx : Nat
  rcx : Nat
  rbx : Nat
  rax : Nat
deriving DecidableEq, Repr

/-- Modelled from the spec: the hardware-pushed trap frame. -/
structure X86InterruptFrame where
  rip : Nat
  cs : Nat
  flags : Nat
  rsp : Nat
  ss : Nat
deriving DecidableEq, Repr

/-- Modelled from the spec: `X86ExceptionContext`, the fixed-layout snapshot
of register state captured at trap entry. -/
structure X86ExceptionContext where
  regs : X86GeneralRegs
  vector : Nat
  error_code : Nat
  frame : X86InterruptFrame
deriving DecidableEq, Repr

/-- Modelled from the spec: the double-fault vector number (`DF_VECTOR` in
cpu/idt/common.rs, which is not part of the excerpt). -/
def DF_VECTOR : Nat := 8

/-- Modelled from the spec: the secure-communication (#VC) vector number
(`VC_VECTOR` in cpu/idt/common.rs, which is not part of the excerpt). -/
def VC_VECTOR : Nat := 29

/-- Outcome of a generic stage-2 dispatcher run: the two fatal branches never
return and carry the values interpolated into their diagnostic message; the
delegation branches hand the context to the external #VC handler of the
matching variant. -/
inductive HandlerOutcome where
  | fatalDoubleFault (rip rsp cr2 : Nat)
  | fatalUnhandled (vector rip error_code : Nat)
  | delegatedVC
  | delegatedVCNoGhcb
deriving DecidableEq, Repr

/-- Embeds `stage2_generic_idt_handler`; `cr2` is the value `read_cr2()`
returns. -/
def stage2_generic_idt_handler (ctx : X86ExceptionContext) (cr2 : Nat) :
    HandlerOutcome :=
  if ctx.vector = DF_VECTOR then
    .fatalDoubleFault ctx.frame.rip ctx.frame.rsp cr2
  else if ctx.vector = VC_VECTOR then
    .delegatedVC
  else
    .fatalUnhandled ctx.vector ctx.frame.rip ctx.error_code

/-- Embeds `stage2_generic_idt_handler_no_ghcb`. -/
def stage2_generic_idt_handler_no_ghcb (ctx : X86ExceptionContext)
    (cr2 : Nat) : HandlerOutcome :=
  if ctx.vector = DF_VECTOR then
    .fatalDoubleFault ctx.frame.rip ctx.frame.rsp cr2
  else if ctx.vector = VC_VECTOR then
    .delegatedVCNoGhcb
  else
    .fatalUnhandled ctx.vector ctx.frame.rip ctx.error_code

/-- Modelled from the spec: an IDT entry referencing a handler address
(`IdtEntry::entry` in cpu/idt/common.rs, not part of the excerpt). -/
structure IdtEntry where
  target : Nat
deriving DecidableEq, Repr

/-- Modelled from the spec: `IdtEntry::entry(addr)` builds the descriptor
referencing `addr`. -/
def IdtEntry.entry (addr : Nat) : IdtEntry := ⟨addr⟩

/-- Modelled from the spec: the fixed-size vector table; the source fixes the
length (32 vectors), the model allows any length and the theorems quantify
over it. -/
abbrev Idt := List IdtEntry

/-- Embeds `init_idt`: every slot `i` is overwritten with an entry referencing
`handler_array + 32 * i`. -/
def init_idt (idt : Idt) (handler_array : Nat) : Idt :=
  idt.mapIdx fun i _ => IdtEntry.entry (handler_array + 32 * i)

/-- Per-CPU interrupt-table state: the global table and the table loaded into
the CPU's hardware register, if any. -/
structure CpuIdtState where
  global_idt : Idt
  loaded_idt : Option Idt
deriving DecidableEq, Repr

/-- Modelled from the spec: `load_idt` loads a table into the current CPU's
hardware register. -/
def load_idt (idt : Idt) (st : CpuIdtState) : CpuIdtState :=
  { st with loaded_idt := some idt }

/-- Embeds `early_idt_init`: populate `GLOBAL_IDT` from the stage-2 handler
array, then load it; `handler_array` is the address of the extern stub
block. -/
def early_idt_init (handler_array : Nat) (st : CpuIdtState) : CpuIdtState :=
  let st2 : CpuIdtState := { st with global_idt := init_idt st.global_idt handler_array }
  load_idt st2.global_idt st2

/-- Embeds `early_idt_init_no_ghcb`: identical shape, using the no-GHCB stub
block's address. -/
def early_idt_init_no_ghcb (handler_array : Nat) (st : CpuIdtState) :
    CpuIdtState :=
  let st2 : CpuIdtState := { st with global_idt := init_idt st.global_idt handler_array }
  load_idt st2.global_idt st2

/-- Embeds `SvsmReqError` at the granularity services.rs uses: the
constructors the excerpt calls plus a fatal class (the full taxonomy lives in
protocols/errors.rs, outside the excerpt). -/
inductive SvsmReqError where
  | invalid_parameter
  | invalid_request
  | invalid_address
  | fatal_error (code : Nat)
deriving DecidableEq, Repr

/-- Modelled from the spec: size of `SnpReportRequest` (pld_report.rs is not
part of the excerpt): 64 bytes of user data, a 32-bit VMPL field, and
reserved padding. -/
def REPORT_REQUEST_SIZE : Nat := 96

/-- Modelled from the spec: the fixed size of `SnpReportResponse`. -/
def REPORT_RESPONSE_SIZE : Nat := 1216

/-- Modelled from the spec: byte offset of the little-endian 32-bit VMPL
field inside `SnpReportRequest`, just past the 64 bytes of user data. -/
def REQ_VMPL_OFFSET : Nat := 64

/-- Little-endian 32-bit decode of four bytes of a buffer. -/
def leU32 (b : List Nat) (off : Nat) : Nat :=
  b.getD off 0 % 256
    + 256 * (b.getD (off + 1) 0 % 256)
    + 65536 * (b.getD (off + 2) 0 % 256)
    + 16777216 * (b.getD (off + 3) 0 % 256)

/-- Modelled from the spec: the VMPL field of a report request decoded from a
buffer's leading bytes. -/
structure SnpReportRequest where
  vmpl : Nat
deriving DecidableEq, Repr

/-- Modelled from the spec: `SnpReportRequest::try_from_as_ref` reinterprets
the buffer's leading bytes as a request, failing when the buffer is too
small. -/
def SnpReportRequest.try_from_as_ref (buffer : List Nat) :
    Except SvsmReqError SnpReportRequest :=
  if REPORT_REQUEST_SIZE ≤ buffer.length then
    .ok ⟨leU32 buffer REQ_VMPL_OFFSET⟩
  else
    .error .invalid_parameter

/-- Embeds `SnpReportRequest::is_vmpl0`. -/
def SnpReportRequest.is_vmpl0 (r : SnpReportRequest) : Bool := r.vmpl == 0

/-- Events recording each invocation of the guest-request driver. -/
inductive GreqEvent where
  | regularRequest
  | extendedRequest
deriving DecidableEq, Repr

/-- The external `SNP_GUEST_REQUEST` driver (greq/driver.rs, outside the
excerpt): each send returns the rewritten buffer and the response length, or
an error. -/
structure GreqDriver where
  send_regular_guest_request :
    List Nat → Nat → Except SvsmReqError (List Nat × Nat)
  send_extended_guest_request :
    List Nat → Nat → List Nat → Except SvsmReqError (List Nat × Nat)

/-- The external response decode and validation steps
(`SnpReportResponse::try_from_as_ref` and `validate`, outside the excerpt). -/
structure ReportResponseOps where
  resp_try_from : List Nat → Except SvsmReqError Unit
  validate : List Nat → Except SvsmReqError Unit

/-- Embeds the tail of `get_report` after the driver call: the response-size
check, then response decode and validation. -/
def get_report_finish (rops : ReportResponseOps) (buffer : List Nat)
    (response_len : Nat) : Except SvsmReqError Nat :=
  if REPORT_RESPONSE_SIZE > response_len then
    .error .invalid_request
  else
    match rops.resp_try_from buffer with
    | .error er => .error er
    | .ok _ =>
      match rops.validate buffer with
      | .error er => .error er
      | .ok _ => .ok response_len

/-- Embeds `get_report`; alongside the result it returns the log of driver
invocations, so "no request was sent to the secure processor" is the log
being empty. -/
def get_report (d : GreqDriver) (rops : ReportResponseOps)
    (buffer : List Nat) (certs : Option (List Nat)) :
    Except SvsmReqError Nat × List GreqEvent :=
  match SnpReportRequest.try_from_as_ref buffer with
  | .error er => (.error er, [])
  | .ok request =>
    if !request.is_vmpl0 then
      (.error .invalid_parameter, [])
    else
      match certs with
      | none =>
        match d.send_regular_guest_request buffer REPORT_REQUEST_SIZE with
        | .error er => (.error er, [.regularRequest])
        | .ok (buf2, response_len) =>
          (get_report_finish rops buf2 response_len, [.regularRequest])
      | some c =>
        match d.send_extended_guest_request buffer REPORT_REQUEST_SIZE c with
        | .error er => (.error er, [.extendedRequest])
        | .ok (buf2, response_len) =>
          (get_report_finish rops buf2 response_len, [.extendedRequest])

/-- Embeds `get_regular_report`. -/
def get_regular_report (d : GreqDriver) (rops : ReportResponseOps)
    (buffer : List Nat) : Except SvsmReqError Nat × List GreqEvent :=
  get_report d rops buffer none

/-- Embeds `get_extended_report`. -/
def get_extended_report (d : GreqDriver) (rops : ReportResponseOps)
    (buffer : List Nat) (certs : List Nat) :
    Except SvsmReqError Nat × List GreqEvent :=
  get_report d rops buffer (some certs)

/-- Three pairwise disjoint stack regions used by the concrete scenarios. -/
def cexStacks : StacksBounds :=
  [⟨0x1000, 0x2000⟩, ⟨0x2000, 0x3000⟩, ⟨0x3000, 0x4000⟩]

/-- Classifier for the concrete scenarios: the single trampoline-resume
address 0x2000. -/
def cexExc : ExcSites := fun rip => rip == 0x2000

/-- Adversarial memory: the saved pair at 0x1800 leads to an exception frame
at rsp 0x1810 whose embedded context names 0x1810 as its own saved `rsp` and
an exception-return site as its `rip`, so unwinding it reproduces the same
frame forever. -/
def cexMem : Memory := fun a =>
  if a = 0x1800 then 5
  else if a = 0x1808 then 0x2000
  else if a = 0x1850 then 5
  else if a = 0x1898 then 0x2000
  else if a = 0x18B0 then 0x1810
  else 0

/-- The unwinder started on the adversarial memory. -/
def cexS0 : StackUnwinder := StackUnwinder.new cexMem cexExc 0x1800 cexStacks

/-- The frame the adversarial walk yields forever. -/
def cexFrame1 : StackFrame := ⟨5, 0x1810, 0x2000, false, true, 0x7F0⟩

/-- Classifier that recognises no exception-return sites. -/
def noExc : ExcSites := fun _ => false

/-- Memory holding a well-formed two-step frame-pointer chain at 0x1100. -/
def chainMem : Memory := fun a =>
  if a = 0x1100 then 0x1200
  else if a = 0x1108 then 0x42
  else if a = 0x1200 then 0x1300
  else if a = 0x1208 then 0x43
  else 0

/-- An unwinder state whose pending frame is an ordinary (non-last,
non-exception) frame of the chain in `chainMem`. -/
def chainS : StackUnwinder :=
  ⟨some (.Valid ⟨0x1200, 0x1110, 0x42, false, false, 0⟩), cexStacks⟩

/-- An unwinder state whose pending item is `Invalid`. -/
def invS : StackUnwinder := ⟨some .Invalid, cexStacks⟩

/-- Memory that is zero everywhere. -/
def zeroMem : Memory := fun _ => 0

/-- Concrete stack regions, frame and classifier exercising the `Valid`
branch of the per-step classification. -/
def w1Stacks : StacksBounds := [⟨0, 256⟩, ⟨256, 512⟩, ⟨512, 1024⟩]

/-- The frame `check_unwound_frame` produces for the triple (5, 3, 7) over
`w1Stacks` with no exception sites. -/
def w1Frame : StackFrame := ⟨5, 3, 7, false, false, 253⟩

/-- A synthetic exception context whose vector is the double-fault vector. -/
def w6Ctx : X86ExceptionContext :=
  { regs := ⟨0, 0, 0, 0, 0, 0, 0, 0, 0, 0, 0, 0, 0, 0, 0⟩,
    vector := 8,
    error_code := 0x11,
    frame := ⟨0x401000, 0x7FF0, 0x2B, 0x9000, 0x30⟩ }

/-- A 96-byte report-request buffer whose VMPL field (offset 64) is 1. -/
def w10Buffer : List Nat :=
  List.replicate 64 0 ++ [1] ++ List.replicate 31 0

/-- A 96-byte report-request buffer whose VMPL field is 0. -/
def w10BufferVmpl0 : List Nat := List.replicate 96 0

/-- A driver whose sends succeed with a short (zero-length) response. -/
def w10Driver : GreqDriver :=
  { send_regular_guest_request := fun buf _ => .ok (buf, 0),
    send_extended_guest_request := fun buf _ _ => .ok (buf, 0) }

/-- Response operations that accept everything. -/
def w10Rops : ReportResponseOps :=
  { resp_try_from := fun _ => .ok (), validate := fun _ => .ok () }

/-- The frame the chain in `chainMem` yields after `chainS`. -/
def w9Frame2 : StackFrame := ⟨0x1300, 0x1210, 0x43, false, false, 0xDF0⟩

/-- Invariant of reachable unwinder states: a pending `Valid` frame lies on a
configured stack, and satisfies the forward-progress bound unless it is last
or an exception frame.  Both facts hold of every frame
`check_unwound_frame` classifies `Valid`. -/
def StateInv (s : StackUnwinder) : Prop :=
  ∀ f, s.next_frame = some (.Valid f) →
    FrameOnStack s.stackBounds f ∧
      (f.is_last = false → f.is_exception_frame = false → f.rsp ≤ f.rbp)

theorem StackUnwinder.next_eq (m : Memory) (e : ExcSites) (s : StackUnwinder) :
    s.next m e = (s.next_frame, s.step m e) := by
  cases h : s.next_frame <;>
    simp [StackUnwinder.next, StackUnwinder.step, h]

theorem StackUnwinder.step_stackBounds (m : Memory) (e : ExcSites)
    (s : StackUnwinder) : (s.step m e).stackBounds = s.stackBounds := by
  cases h : s.next_frame <;>
    simp [StackUnwinder.step, StackUnwinder.next, h]

theorem StackUnwinder.step_of_none {m : Memory} {e : ExcSites}
    {s : StackUnwinder} (h : s.next_frame = none) : s.step m e = s := by
  simp [StackUnwinder.step, StackUnwinder.next, h]

theorem StackUnwinder.iterate_of_none {m : Memory} {e : ExcSites}
    {s : StackUnwinder} (h : s.next_frame = none) (n : Nat) :
    (StackUnwinder.step m e)^[n] s = s :=
  Function.iterate_fixed (StackUnwinder.step_of_none h) n

theorem StackUnwinder.step_of_invalid {m : Memory} {e : ExcSites}
    {s : StackUnwinder} (h : s.next_frame = some .Invalid) :
    (s.step m e).next_frame = none := by
  simp [StackUnwinder.step, StackUnwinder.next, h]

theorem StackUnwinder.step_of_last {m : Memory} {e : ExcSites}
    {s : StackUnwinder} {f : StackFrame} (h : s.next_frame = some (.Valid f))
    (hl : f.is_last = true) : (s.step m e).next_frame = none := by
  simp [StackUnwinder.step, StackUnwinder.next, h, hl]

theorem StackUnwinder.step_of_exception {m : Memory} {e : ExcSites}
    {s : StackUnwinder} {f : StackFrame} (h : s.next_frame = some (.Valid f))
    (hl : f.is_last = false) (hx : f.is_exception_frame = true) :
    (s.step m e).next_frame =
      some (StackUnwinder.unwind_exception_frame m e f.rsp s.stackBounds) := by
  simp [StackUnwinder.step, StackUnwinder.next, h, hl, hx]

theorem StackUnwinder.step_of_framepointer {m : Memory} {e : ExcSites}
    {s : StackUnwinder} {f : StackFrame} (h : s.next_frame = some (.Valid f))
    (hl : f.is_last = false) (hx : f.is_exception_frame = false) :
    (s.step m e).next_frame =
      some (StackUnwinder.unwind_framepointer_frame m e f.rbp s.stackBounds) := by
  simp [StackUnwinder.step, StackUnwinder.next, h, hl, hx]

theorem StackUnwinder.check_eq_valid_spec {e : ExcSites} {rbp rsp rip : Nat}
    {sb : StacksBounds} {f : StackFrame}
    (h : StackUnwinder.check_unwound_frame e rbp rsp rip sb = .Valid f) :
    f.rbp = rbp ∧ f.rsp = rsp ∧ f.rip = rip ∧ f.is_last = (rbp == 0) ∧
    f.is_exception_frame = e rip ∧
    (∃ st, sb.find? (fun r => r.contains rsp) = some st ∧
      f._stack_depth = st.endAddr - rsp) ∧
    (f.is_last = false → f.is_exception_frame = false → rsp ≤ rbp) := by
  unfold StackUnwinder.check_unwound_frame at h
  cases hf : sb.find? (fun r => r.contains rsp) with
  | none => rw [hf] at h; exact absurd h (by simp)
  | some st =>
    rw [hf] at h
    simp only [StackUnwinder.frame_is_last] at h
    by_cases hc : (!(rbp == 0) && !(e rip) && decide (rbp < rsp)) = true
    · rw [if_pos hc] at h
      exact absurd h (by simp)
    · rw [if_neg hc] at h
      injection h with h2
      subst h2
      refine ⟨rfl, rfl, rfl, rfl, rfl, ⟨st, rfl, rfl⟩, ?_⟩
      intro hl hx
      have hl2 : (rbp == 0) = false := hl
      have hx2 : e rip = false := hx
      have hlt : ¬rbp < rsp := by
        intro hlt
        exact hc (by simp [hl2, hx2, hlt])
      omega

theorem StackUnwinder.check_eq_invalid_iff (e : ExcSites) (rbp rsp rip : Nat)
    (sb : StacksBounds) :
    StackUnwinder.check_unwound_frame e rbp rsp rip sb = .Invalid ↔
      (∀ st ∈ sb, st.contains rsp = false) ∨
        (¬rbp = 0 ∧ e rip = false ∧ rbp < rsp) := by
  unfold StackUnwinder.check_unwound_frame
  cases hf : sb.find? (fun r => r.contains rsp) with
  | none =>
    have hnone := List.find?_eq_none.mp hf
    constructor
    · intro _
      left
      intro st hst
      simpa using hnone st hst
    · intro _
      rfl
  | some st =>
    have hmem := List.mem_of_find?_eq_some hf
    have hcont : st.contains rsp = true := by
      have h2 := List.find?_some hf
      simpa using h2
    simp only [StackUnwinder.frame_is_last]
    by_cases hc : (!(rbp == 0) && !(e rip) && decide (rbp < rsp)) = true
    · rw [if_pos hc]
      simp only [true_iff]
      right
      simpa [Bool.and_eq_true, Bool.not_eq_true', beq_eq_false_iff_ne,
        decide_eq_true_eq, and_assoc] using hc
    · rw [if_neg hc]
      constructor
      · intro habs
        exact absurd habs (by simp)
      · rintro (hall | ⟨h0, hx, hlt⟩)
        · exact absurd hcont (by simp [hall st hmem])
        · exact absurd (by simp [h0, hx, hlt] : (!(rbp == 0) && !(e rip) && decide (rbp < rsp)) = true) hc

theorem StackUnwinder.unwind_framepointer_frame_cases (m : Memory)
    (e : ExcSites) (rbp : Nat) (sb : StacksBounds) :
    StackUnwinder.unwind_framepointer_frame m e rbp sb = .Invalid ∨
      StackUnwinder.unwind_framepointer_frame m e rbp sb =
        StackUnwinder.check_unwound_frame e (readV m rbp)
          (rbp + PTR_SIZE + PTR_SIZE) (readV m (rbp + PTR_SIZE)) sb := by
  cases hn : MemoryRegion.checked_new rbp (2 * PTR_SIZE) with
  | none =>
    left
    simp [StackUnwinder.unwind_framepointer_frame, hn]
  | some range =>
    by_cases ha : (sb.any fun stack => stack.contains_region range) = true
    · right
      simp [StackUnwinder.unwind_framepointer_frame, hn, ha]
    · left
      simp only [Bool.not_eq_true] at ha
      simp [StackUnwinder.unwind_framepointer_frame, hn, ha]

theorem StackUnwinder.unwind_exception_frame_cases (m : Memory)
    (e : ExcSites) (rsp : Nat) (sb : StacksBounds) :
    StackUnwinder.unwind_exception_frame m e rsp sb = .Invalid ∨
      StackUnwinder.unwind_exception_frame m e rsp sb =
        StackUnwinder.check_unwound_frame e (readV m (rsp + CTX_RBP_OFFSET))
          (readV m (rsp + CTX_RSP_OFFSET)) (readV m (rsp + CTX_RIP_OFFSET)) sb := by
  cases hn : MemoryRegion.checked_new rsp X86ExceptionContextSize with
  | none =>
    left
    simp [StackUnwinder.unwind_exception_frame, hn]
  | some range =>
    by_cases ha : (sb.any fun stack => stack.contains_region range) = true
    · right
      simp [StackUnwinder.unwind_exception_frame, hn, ha]
    · left
      simp only [Bool.not_eq_true] at ha
      simp [StackUnwinder.unwind_exception_frame, hn, ha]

theorem StackUnwinder.unwind_framepointer_frame_spec (m : Memory)
    (e : ExcSites) (rbp : Nat) (sb : StacksBounds) :
    ((rbp + 2 * PTR_SIZE < USIZE_LIMIT ∧
        ∃ st ∈ sb, st.start ≤ rbp ∧ rbp + 2 * PTR_SIZE ≤ st.endAddr) →
      StackUnwinder.unwind_framepointer_frame m e rbp sb =
        StackUnwinder.check_unwound_frame e (readV m rbp)
          (rbp + PTR_SIZE + PTR_SIZE) (readV m (rbp + PTR_SIZE)) sb) ∧
    (¬(rbp + 2 * PTR_SIZE < USIZE_LIMIT ∧
        ∃ st ∈ sb, st.start ≤ rbp ∧ rbp + 2 * PTR_SIZE ≤ st.endAddr) →
      StackUnwinder.unwind_framepointer_frame m e rbp sb = .Invalid) := by
  constructor
  · rintro ⟨hov, st, hst, h1, h2⟩
    have ha : (sb.any fun stack =>
        stack.contains_region ⟨rbp, rbp + 2 * PTR_SIZE⟩) = true := by
      simp only [List.any_eq_true]
      exact ⟨st, hst, by simp [MemoryRegion.contains_region, h1, h2]⟩
    simp [StackUnwinder.unwind_framepointer_frame, MemoryRegion.checked_new,
      hov, ha]
  · intro hno
    by_cases hov : rbp + 2 * PTR_SIZE < USIZE_LIMIT
    · have ha : (sb.any fun stack =>
          stack.contains_region ⟨rbp, rbp + 2 * PTR_SIZE⟩) = false := by
        by_contra hcon
        rw [Bool.not_eq_false, List.any_eq_true] at hcon
        obtain ⟨st, hst, hcr⟩ := hcon
        simp only [MemoryRegion.contains_region, decide_eq_true_eq] at hcr
        exact hno ⟨hov, st, hst, hcr.1, hcr.2⟩
      simp [StackUnwinder.unwind_framepointer_frame, MemoryRegion.checked_new,
        hov, ha]
    · simp [StackUnwinder.unwind_framepointer_frame, MemoryRegion.checked_new,
        hov]

theorem StackUnwinder.unwind_exception_frame_spec (m : Memory)
    (e : ExcSites) (rsp : Nat) (sb : StacksBounds) :
    ((rsp + X86ExceptionContextSize < USIZE_LIMIT ∧
        ∃ st ∈ sb, st.start ≤ rsp ∧ rsp + X86ExceptionContextSize ≤ st.endAddr) →
      StackUnwinder.unwind_exception_frame m e rsp sb =
        StackUnwinder.check_unwound_frame e (readV m (rsp + CTX_RBP_OFFSET))
          (readV m (rsp + CTX_RSP_OFFSET)) (readV m (rsp + CTX_RIP_OFFSET)) sb) ∧
    (¬(rsp + X86ExceptionContextSize < USIZE_LIMIT ∧
        ∃ st ∈ sb, st.start ≤ rsp ∧ rsp + X86ExceptionContextSize ≤ st.endAddr) →
      StackUnwinder.unwind_exception_frame m e rsp sb = .Invalid) := by
  constructor
  · rintro ⟨hov, st, hst, h1, h2⟩
    have ha : (sb.any fun stack =>
        stack.contains_region ⟨rsp, rsp + X86ExceptionContextSize⟩) = true := by
      simp only [List.any_eq_true]
      exact ⟨st, hst, by simp [MemoryRegion.contains_region, h1, h2]⟩
    simp [StackUnwinder.unwind_exception_frame, MemoryRegion.checked_new,
      hov, ha]
  · intro hno
    by_cases hov : rsp + X86ExceptionContextSize < USIZE_LIMIT
    · have ha : (sb.any fun stack =>
          stack.contains_region ⟨rsp, rsp + X86ExceptionContextSize⟩) = false := by
        by_contra hcon
        rw [Bool.not_eq_false, List.any_eq_true] at hcon
        obtain ⟨st, hst, hcr⟩ := hcon
        simp only [MemoryRegion.contains_region, decide_eq_true_eq] at hcr
        exact hno ⟨hov, st, hst, hcr.1, hcr.2⟩
      simp [StackUnwinder.unwind_exception_frame, MemoryRegion.checked_new,
        hov, ha]
    · simp [StackUnwinder.unwind_exception_frame, MemoryRegion.checked_new,
        hov]

theorem StackUnwinder.check_valid_onstack {e : ExcSites} {rbp rsp rip : Nat}
    {sb : StacksBounds} {f : StackFrame}
    (h : StackUnwinder.check_unwound_frame e rbp rsp rip sb = .Valid f) :
    FrameOnStack sb f := by
  obtain ⟨-, hrsp, -, -, -, ⟨st, hf, -⟩, -⟩ := StackUnwinder.check_eq_valid_spec h
  have hmem := List.mem_of_find?_eq_some hf
  have hcont : st.contains rsp = true := by
    have h2 := List.find?_some hf
    simpa using h2
  exact ⟨st, hmem, by rw [hrsp]; exact hcont⟩

theorem endAddr_le_maxEnd {sb : StacksBounds} {st : MemoryRegion}
    (h : st ∈ sb) : st.endAddr ≤ maxEnd sb := by
  induction sb with
  | nil => cases h
  | cons hd tl ih =>
    rcases List.mem_cons.mp h with h1 | h2
    · subst h1
      exact le_max_left _ _
    · exact le_trans (ih h2) (le_max_right _ _)

theorem FrameOnStack.rsp_lt_maxEnd {sb : StacksBounds} {f : StackFrame}
    (h : FrameOnStack sb f) : f.rsp < maxEnd sb := by
  obtain ⟨st, hmem, hcont⟩ := h
  simp only [MemoryRegion.contains, decide_eq_true_eq] at hcont
  exact lt_of_lt_of_le hcont.2 (endAddr_le_maxEnd hmem)

theorem StackUnwinder.check_valid_inv {e : ExcSites} {rbp rsp rip : Nat}
    {sb : StacksBounds} {f : StackFrame}
    (h : StackUnwinder.check_unwound_frame e rbp rsp rip sb = .Valid f) :
    FrameOnStack sb f ∧
      (f.is_last = false → f.is_exception_frame = false → f.rsp ≤ f.rbp) := by
  refine ⟨StackUnwinder.check_valid_onstack h, ?_⟩
  obtain ⟨hrbp, hrsp, -, -, -, -, hprog⟩ := StackUnwinder.check_eq_valid_spec h
  intro hl hx
  rw [hrbp, hrsp]
  exact hprog hl hx

theorem StackUnwinder.unwind_framepointer_valid_inv {m : Memory}
    {e : ExcSites} {rbp : Nat} {sb : StacksBounds} {f : StackFrame}
    (h : StackUnwinder.unwind_framepointer_frame m e rbp sb = .Valid f) :
    FrameOnStack sb f ∧
      (f.is_last = false → f.is_exception_frame = false → f.rsp ≤ f.rbp) := by
  rcases StackUnwinder.unwind_framepointer_frame_cases m e rbp sb with hc | hc
  · rw [h] at hc
    cases hc
  · rw [h] at hc
    exact StackUnwinder.check_valid_inv hc.symm

theorem StackUnwinder.unwind_exception_valid_inv {m : Memory}
    {e : ExcSites} {rsp : Nat} {sb : StacksBounds} {f : StackFrame}
    (h : StackUnwinder.unwind_exception_frame m e rsp sb = .Valid f) :
    FrameOnStack sb f ∧
      (f.is_last = false → f.is_exception_frame = false → f.rsp ≤ f.rbp) := by
  rcases StackUnwinder.unwind_exception_frame_cases m e rsp sb with hc | hc
  · rw [h] at hc
    cases hc
  · rw [h] at hc
    exact StackUnwinder.check_valid_inv hc.symm

theorem stateInv_new (m : Memory) (e : ExcSites) (rbp : Nat)
    (sb : StacksBounds) : StateInv (StackUnwinder.new m e rbp sb) := by
  intro f hf
  simp only [StackUnwinder.new, Option.some.injEq] at hf
  simpa [StackUnwinder.new] using StackUnwinder.unwind_framepointer_valid_inv hf

theorem stateInv_step {m : Memory} {e : ExcSites} {s : StackUnwinder}
    (h : StateInv s) : StateInv (s.step m e) := by
  intro f hf
  rw [StackUnwinder.step_stackBounds]
  cases hnf : s.next_frame with
  | none =>
    rw [StackUnwinder.step_of_none hnf] at hf
    exact (h f hf).imp id id
  | some cur =>
    cases cur with
    | Invalid =>
      rw [StackUnwinder.step_of_invalid hnf] at hf
      cases hf
    | Valid g =>
      by_cases hl : g.is_last = true
      · rw [StackUnwinder.step_of_last hnf hl] at hf
        cases hf
      · rw [Bool.not_eq_true] at hl
        by_cases hx : g.is_exception_frame = true
        · rw [StackUnwinder.step_of_exception hnf hl hx] at hf
          injection hf with hf2
          exact StackUnwinder.unwind_exception_valid_inv hf2
        · rw [Bool.not_eq_true] at hx
          rw [StackUnwinder.step_of_framepointer hnf hl hx] at hf
          injection hf with hf2
          exact StackUnwinder.unwind_framepointer_valid_inv hf2

theorem measure_pos (sb : StacksBounds) (fr : UnwoundStackFrame) :
    1 ≤ stateMeasure sb (some fr) := by
  cases fr with
  | Invalid => simp [stateMeasure]
  | Valid f =>
    simp only [stateMeasure]
    split <;> omega

theorem measure_decreases {m : Memory} {e : ExcSites} {s : StackUnwinder}
    (hinv : StateInv s)
    (hne : ∀ f, s.next_frame = some (.Valid f) → f.is_exception_frame = false)
    {fr : UnwoundStackFrame} (hnf : s.next_frame = some fr) :
    stateMeasure s.stackBounds (s.step m e).next_frame <
      stateMeasure s.stackBounds s.next_frame := by
  cases fr with
  | Invalid =>
    rw [StackUnwinder.step_of_invalid hnf, hnf]
    simp [stateMeasure]
  | Valid f =>
    by_cases hl : f.is_last = true
    · rw [StackUnwinder.step_of_last hnf hl, hnf]
      simp [stateMeasure, hl]
    · rw [Bool.not_eq_true] at hl
      have hx : f.is_exception_frame = false := hne f hnf
      rw [StackUnwinder.step_of_framepointer hnf hl hx, hnf]
      obtain ⟨honstack, hprog⟩ := hinv f hnf
      have hrsp_lt := FrameOnStack.rsp_lt_maxEnd honstack
      have hprog2 := hprog hl hx
      cases hval : StackUnwinder.unwind_framepointer_frame m e f.rbp
          s.stackBounds with
      | Invalid =>
        simp only [stateMeasure, hl, Bool.false_eq_true, if_false]
        omega
      | Valid f2 =>
        rcases StackUnwinder.unwind_framepointer_frame_cases m e f.rbp
            s.stackBounds with hc | hc
        · rw [hval] at hc
          cases hc
        · rw [hval] at hc
          obtain ⟨hrbp2, hrsp2, -, -, -, -, -⟩ :=
            StackUnwinder.check_eq_valid_spec hc.symm
          by_cases hl2 : f2.is_last = true
          · simp only [stateMeasure, hl, hl2, Bool.false_eq_true, if_false,
              if_true]
            omega
          · rw [Bool.not_eq_true] at hl2
            simp only [stateMeasure, hl, hl2, Bool.false_eq_true, if_false]
            have hgt : f.rsp < f2.rsp := by
              rw [hrsp2]
              have hp : PTR_SIZE = 8 := rfl
              omega
            have hlt2 : maxEnd s.stackBounds - f2.rsp <
                maxEnd s.stackBounds - f.rsp :=
              Nat.sub_lt_sub_left hrsp_lt hgt
            omega

theorem terminates_of_no_exception_aux (m : Memory) (e : ExcSites) :
    ∀ (k : Nat) (s : StackUnwinder),
      stateMeasure s.stackBounds s.next_frame ≤ k →
      StateInv s →
      (∀ n f, ((StackUnwinder.step m e)^[n] s).next_frame =
          some (.Valid f) → f.is_exception_frame = false) →
      StackUnwinder.Terminates m e s := by
  intro k
  induction k with
  | zero =>
    intro s hk _ _
    cases hnf : s.next_frame with
    | none => exact ⟨0, hnf⟩
    | some fr =>
      have hp := measure_pos s.stackBounds fr
      rw [hnf] at hk
      omega
  | succ k ih =>
    intro s hk hinv hne
    cases hnf : s.next_frame with
    | none => exact ⟨0, hnf⟩
    | some fr =>
      have hdec := measure_decreases (m := m) (e := e) hinv
        (fun f hf => hne 0 f (by simpa using hf)) hnf
      have hinv2 := stateInv_step (m := m) (e := e) hinv
      have hne2 : ∀ n f,
          ((StackUnwinder.step m e)^[n] (s.step m e)).next_frame =
            some (.Valid f) → f.is_exception_frame = false := by
        intro n f hf
        apply hne (n + 1) f
        rw [Function.iterate_succ_apply]
        exact hf
      have hk2 : stateMeasure (s.step m e).stackBounds
          (s.step m e).next_frame ≤ k := by
        rw [StackUnwinder.step_stackBounds]
        omega
      obtain ⟨n, hn⟩ := ih (s.step m e) hk2 hinv2 hne2
      exact ⟨n + 1, by rw [Function.iterate_succ_apply]; exact hn⟩

theorem terminates_of_no_exception (m : Memory) (e : ExcSites) (rbp : Nat)
    (sb : StacksBounds)
    (hne : ∀ n f, ((StackUnwinder.step m e)^[n]
        (StackUnwinder.new m e rbp sb)).next_frame = some (.Valid f) →
      f.is_exception_frame = false) :
    StackUnwinder.Terminates m e (StackUnwinder.new m e rbp sb) :=
  terminates_of_no_exception_aux m e _ (StackUnwinder.new m e rbp sb)
    le_rfl (stateInv_new m e rbp sb) hne

theorem items_of_none {m : Memory} {e : ExcSites} {s : StackUnwinder}
    (h : s.next_frame = none) (n : Nat) :
    StackUnwinder.itemsUpTo m e n s = [] := by
  cases n with
  | zero => rfl
  | succ n => simp [StackUnwinder.itemsUpTo, h]

theorem printLoop_eq_items (m : Memory) (e : ExcSites) :
    ∀ (n : Nat) (s : StackUnwinder),
      ((StackUnwinder.step m e)^[n] s).next_frame = none →
      printLoop m e n s = (StackUnwinder.itemsUpTo m e n s).map renderFrame := by
  intro n
  induction n with
  | zero => intro s _; rfl
  | succ n ih =>
    intro s h
    cases hnf : s.next_frame with
    | none =>
      simp [printLoop, StackUnwinder.itemsUpTo, StackUnwinder.next_eq, hnf]
    | some fr =>
      rw [Function.iterate_succ_apply] at h
      have h2 := ih (s.step m e) h
      simp [printLoop, StackUnwinder.itemsUpTo, StackUnwinder.next_eq, hnf, h2]

theorem items_drop (m : Memory) (e : ExcSites) :
    ∀ (n k : Nat) (s : StackUnwinder),
      (StackUnwinder.itemsUpTo m e n s).drop k =
        StackUnwinder.itemsUpTo m e (n - k) ((StackUnwinder.step m e)^[k] s) := by
  intro n
  induction n with
  | zero =>
    intro k s
    simp [StackUnwinder.itemsUpTo, items_of_none]
  | succ n ih =>
    intro k s
    cases k with
    | zero => simp
    | succ k =>
      cases hnf : s.next_frame with
      | none =>
        rw [items_of_none hnf, StackUnwinder.iterate_of_none hnf,
          items_of_none hnf]
        simp
      | some fr =>
        have hls : StackUnwinder.itemsUpTo m e (n + 1) s =
            fr :: StackUnwinder.itemsUpTo m e n (s.step m e) := by
          simp [StackUnwinder.itemsUpTo, hnf]
        rw [hls, List.drop_succ_cons, ih k (s.step m e),
          Function.iterate_succ_apply, Nat.succ_sub_succ]

theorem items_stable (m : Memory) (e : ExcSites) :
    ∀ (n : Nat) (s : StackUnwinder) (j : Nat),
      ((StackUnwinder.step m e)^[n] s).next_frame = none →
      StackUnwinder.itemsUpTo m e (n + j) s =
        StackUnwinder.itemsUpTo m e n s := by
  intro n
  induction n with
  | zero =>
    intro s j h
    simp only [Function.iterate_zero, id_eq] at h
    rw [items_of_none h, items_of_none h]
  | succ n ih =>
    intro s j h
    rw [Function.iterate_succ_apply] at h
    cases hnf : s.next_frame with
    | none => rw [items_of_none hnf, items_of_none hnf]
    | some fr =>
      have heq : n + 1 + j = (n + j) + 1 := by omega
      rw [heq]
      simp only [StackUnwinder.itemsUpTo, hnf, List.cons.injEq, true_and]
      exact ih (s.step m e) j h

/-- C1: `check_unwound_frame` classifies a candidate `(rbp, rsp, rip)` as
`Invalid` exactly when no configured region contains `rsp`, or the frame is
neither last nor an exception frame and `rbp < rsp`; otherwise it returns a
`Valid` frame whose `is_last` holds exactly when `rbp = 0`, whose
`is_exception_frame` holds exactly when `rip` is a known exception-handler
return site, and whose diagnostic depth is the containing region's end minus
`rsp`. -/
theorem check_unwound_frame_classification (e : ExcSites) (rbp rsp rip : Nat)
    (sb : StacksBounds) :
    (StackUnwinder.check_unwound_frame e rbp rsp rip sb = .Invalid ↔
      (∀ st ∈ sb, st.contains rsp = false) ∨
        (¬rbp = 0 ∧ e rip = false ∧ rbp < rsp)) ∧
    (∀ f, StackUnwinder.check_unwound_frame e rbp rsp rip sb = .Valid f →
      f.rbp = rbp ∧ f.rsp = rsp ∧ f.rip = rip ∧
      (f.is_last = true ↔ rbp = 0) ∧
      (f.is_exception_frame = true ↔ e rip = true) ∧
      ∃ st, sb.find? (fun r => r.contains rsp) = some st ∧
        st.contains rsp = true ∧ f._stack_depth = st.endAddr - rsp) := by
  constructor
  · exact StackUnwinder.check_eq_invalid_iff e rbp rsp rip sb
  · intro f h
    obtain ⟨h1, h2, h3, h4, h5, ⟨st, hf, hd⟩, -⟩ :=
      StackUnwinder.check_eq_valid_spec h
    refine ⟨h1, h2, h3, ?_, ?_, st, hf, ?_, hd⟩
    · rw [h4]
      simp
    · rw [h5]
    · have h6 := List.find?_some hf
      simpa using h6

/-- Witness for C1: the concrete candidate (5, 3, 7) over `w1Stacks` with no
exception sites is classified `Valid` with the stated fields. -/
theorem check_unwound_frame_classification_witness :
    w1Frame.rbp = 5 ∧ w1Frame.rsp = 3 ∧ w1Frame.rip = 7 ∧
    (w1Frame.is_last = true ↔ (5 : Nat) = 0) ∧
    (w1Frame.is_exception_frame = true ↔ noExc 7 = true) ∧
    ∃ st, w1Stacks.find? (fun r => r.contains 3) = some st ∧
      st.contains 3 = true ∧ w1Frame._stack_depth = st.endAddr - 3 :=
  (check_unwound_frame_classification noExc 5 3 7 w1Stacks).2 w1Frame (by decide)

/-- C2 as stated is false: on the adversarial memory `cexMem`, whose
exception context at 0x1810 names itself as the saved `rsp` and an
exception-return site as the saved `rip`, the unwinder yields the same
`Valid` exception frame forever and `next()` never returns `None`. -/
theorem unwinder_nontermination_counterexample :
    ¬StackUnwinder.Terminates cexMem cexExc cexS0 := by
  rintro ⟨n, hn⟩
  have hfix : StackUnwinder.step cexMem cexExc cexS0 = cexS0 := by decide
  rw [Function.iterate_fixed hfix] at hn
  exact absurd hn (by decide)

/-- C2 (amended): for every memory state, stack configuration and initial
frame-pointer value, if the walk never yields a `Valid` exception frame then
the unwinder's iterator is finite — its `next()` eventually returns
`None`. -/
theorem unwinder_terminates_of_no_exception_frames (m : Memory)
    (e : ExcSites) (rbp : Nat) (sb : StacksBounds)
    (hne : ∀ n f, ((StackUnwinder.step m e)^[n]
        (StackUnwinder.new m e rbp sb)).next_frame = some (.Valid f) →
      f.is_exception_frame = false) :
    StackUnwinder.Terminates m e (StackUnwinder.new m e rbp sb) :=
  terminates_of_no_exception m e rbp sb hne

/-- Witness for the amended C2 on zeroed memory starting from `rbp = 0`
outside every region: the walk yields a single `Invalid` item and stops. -/
theorem unwinder_terminates_of_no_exception_frames_witness :
    StackUnwinder.Terminates zeroMem noExc
      (StackUnwinder.new zeroMem noExc 0 cexStacks) :=
  unwinder_terminates_of_no_exception_frames zeroMem noExc 0 cexStacks (by
    intro n f h
    match n with
    | 0 =>
      simp only [Function.iterate_zero, id_eq] at h
      have h0 : (StackUnwinder.new zeroMem noExc 0 cexStacks).next_frame =
          some .Invalid := by decide
      rw [h0] at h
      simp at h
    | n + 1 =>
      rw [Function.iterate_succ_apply] at h
      have h0 : (StackUnwinder.new zeroMem noExc 0 cexStacks).step zeroMem
          noExc = ⟨none, cexStacks⟩ := by decide
      rw [h0, StackUnwinder.iterate_of_none rfl] at h
      simp at h)

/-- C3: when the current yielded frame is `Valid` with `is_exception_frame`
true and `is_last` false, the next item is `unwind_exception_frame` at the
current frame's `rsp`: the full exception-context byte range must lie within
one configured region (else `Invalid`), `rbp` is read from the saved
register set, `rip` and `rsp` from the trap frame, and the triple is
classified by the per-step algorithm, so the context's fields surface
verbatim in the resulting frame. -/
theorem exception_frame_unwinding (m : Memory) (e : ExcSites)
    (s : StackUnwinder) (f : StackFrame)
    (h : s.next_frame = some (.Valid f)) (hx : f.is_exception_frame = true)
    (hl : f.is_last = false) :
    (s.step m e).next_frame =
      some (StackUnwinder.unwind_exception_frame m e f.rsp s.stackBounds) ∧
    (∀ rsp sb,
      ((rsp + X86ExceptionContextSize < USIZE_LIMIT ∧
          ∃ st ∈ sb, st.start ≤ rsp ∧
            rsp + X86ExceptionContextSize ≤ st.endAddr) →
        StackUnwinder.unwind_exception_frame m e rsp sb =
          StackUnwinder.check_unwound_frame e
            (readV m (rsp + CTX_RBP_OFFSET)) (readV m (rsp + CTX_RSP_OFFSET))
            (readV m (rsp + CTX_RIP_OFFSET)) sb) ∧
      (¬(rsp + X86ExceptionContextSize < USIZE_LIMIT ∧
          ∃ st ∈ sb, st.start ≤ rsp ∧
            rsp + X86ExceptionContextSize ≤ st.endAddr) →
        StackUnwinder.unwind_exception_frame m e rsp sb = .Invalid) ∧
      (∀ f2, StackUnwinder.unwind_exception_frame m e rsp sb = .Valid f2 →
        f2.rbp = readV m (rsp + CTX_RBP_OFFSET) ∧
        f2.rsp = readV m (rsp + CTX_RSP_OFFSET) ∧
        f2.rip = readV m (rsp + CTX_RIP_OFFSET))) := by
  refine ⟨StackUnwinder.step_of_exception h hl hx, ?_⟩
  intro rsp sb
  refine ⟨(StackUnwinder.unwind_exception_frame_spec m e rsp sb).1,
    (StackUnwinder.unwind_exception_frame_spec m e rsp sb).2, ?_⟩
  intro f2 h2
  rcases StackUnwinder.unwind_exception_frame_cases m e rsp sb with hc | hc
  · rw [h2] at hc
    cases hc
  · rw [h2] at hc
    obtain ⟨ha, hb, hc2, -⟩ := StackUnwinder.check_eq_valid_spec hc.symm
    exact ⟨ha, hb, hc2⟩

/-- Witness for C3 on the adversarial memory: after the exception frame
`cexFrame1` the next item is computed by `unwind_exception_frame` at its
`rsp`. -/
theorem exception_frame_unwinding_witness :
    (cexS0.step cexMem cexExc).next_frame =
      some (StackUnwinder.unwind_exception_frame cexMem cexExc cexFrame1.rsp
        cexS0.stackBounds) :=
  (exception_frame_unwinding cexMem cexExc cexS0 cexFrame1 (by decide)
    (by decide) (by decide)).1

/-- C4: the very first frame is computed by walking from the initial
frame-pointer value, and whenever the current yielded frame is `Valid`,
non-last and non-exception, the next item is `unwind_framepointer_frame` at
the current frame's `rbp`: the two-pointer-wide byte range at `rbp` must lie
within one configured region (else `Invalid`), the saved `rbp` is read at
`rbp` and the return `rip` at `rbp` plus one pointer width, the new `rsp` is
`rbp` plus two pointer widths, and the triple is classified by the per-step
algorithm. -/
theorem framepointer_frame_unwinding (m : Memory) (e : ExcSites) :
    (∀ rbp sb, (StackUnwinder.new m e rbp sb).next_frame =
      some (StackUnwinder.unwind_framepointer_frame m e rbp sb)) ∧
    (∀ (s : StackUnwinder) (f : StackFrame),
      s.next_frame = some (.Valid f) → f.is_last = false →
      f.is_exception_frame = false →
      (s.step m e).next_frame =
        some (StackUnwinder.unwind_framepointer_frame m e f.rbp
          s.stackBounds)) ∧
    (∀ rbp sb,
      ((rbp + 2 * PTR_SIZE < USIZE_LIMIT ∧
          ∃ st ∈ sb, st.start ≤ rbp ∧ rbp + 2 * PTR_SIZE ≤ st.endAddr) →
        StackUnwinder.unwind_framepointer_frame m e rbp sb =
          StackUnwinder.check_unwound_frame e (readV m rbp)
            (rbp + PTR_SIZE + PTR_SIZE) (readV m (rbp + PTR_SIZE)) sb) ∧
      (¬(rbp + 2 * PTR_SIZE < USIZE_LIMIT ∧
          ∃ st ∈ sb, st.start ≤ rbp ∧ rbp + 2 * PTR_SIZE ≤ st.endAddr) →
        StackUnwinder.unwind_framepointer_frame m e rbp sb = .Invalid)) :=
  ⟨fun _ _ => rfl,
   fun _ _ h hl hx => StackUnwinder.step_of_framepointer h hl hx,
   fun rbp sb => StackUnwinder.unwind_framepointer_frame_spec m e rbp sb⟩

/-- Witness for C4 on the concrete chain: after the ordinary frame in
`chainS` the next item is computed by `unwind_framepointer_frame` at its
`rbp`. -/
theorem framepointer_frame_unwinding_witness :
    (chainS.step chainMem noExc).next_frame =
      some (StackUnwinder.unwind_framepointer_frame chainMem noExc 0x1200
        cexStacks) :=
  (framepointer_frame_unwinding chainMem noExc).2.1 chainS
    ⟨0x1200, 0x1110, 0x42, false, false, 0⟩ rfl rfl rfl

/-- C5: once the unwinder yields an `Invalid` item, or a `Valid` frame with
`is_last` true, every later state is exhausted; and an exhausted unwinder's
`next` returns `None` without touching memory — its result is the same for
every memory state. -/
theorem unwinder_exhaustion (m : Memory) (e : ExcSites) (s : StackUnwinder) :
    (s.next_frame = some .Invalid →
      ∀ n, ((StackUnwinder.step m e)^[n] (s.step m e)).next_frame = none) ∧
    (∀ f, s.next_frame = some (.Valid f) → f.is_last = true →
      ∀ n, ((StackUnwinder.step m e)^[n] (s.step m e)).next_frame = none) ∧
    (s.next_frame = none → ∀ m2 : Memory, s.next m2 e = (none, s)) := by
  refine ⟨?_, ?_, ?_⟩
  · intro h n
    have h2 := StackUnwinder.step_of_invalid (m := m) (e := e) h
    rw [StackUnwinder.iterate_of_none h2]
    exact h2
  · intro f h hl n
    have h2 := StackUnwinder.step_of_last (m := m) (e := e) h hl
    rw [StackUnwinder.iterate_of_none h2]
    exact h2
  · intro h m2
    simp [StackUnwinder.next, h]

/-- Witness for C5: after the pending `Invalid` item of `invS` the iterator
stays exhausted. -/
theorem unwinder_exhaustion_witness :
    ((StackUnwinder.step cexMem cexExc)^[1]
      (invS.step cexMem cexExc)).next_frame = none :=
  (unwinder_exhaustion cexMem cexExc invS).1 rfl 1

/-- C6: both generic stage-2 dispatchers terminate fatally on the
double-fault vector with a diagnostic carrying `rip`, `rsp` and the
last-fault address, terminate fatally on every vector other than the
double-fault and #VC vectors with a diagnostic carrying the vector, `rip`
and error code, and delegate exactly the #VC vector to the external
handler of the matching variant. -/
theorem stage2_dispatch_classification (ctx : X86ExceptionContext)
    (cr2 : Nat) :
    (ctx.vector = DF_VECTOR →
      stage2_generic_idt_handler ctx cr2 =
        .fatalDoubleFault ctx.frame.rip ctx.frame.rsp cr2 ∧
      stage2_generic_idt_handler_no_ghcb ctx cr2 =
        .fatalDoubleFault ctx.frame.rip ctx.frame.rsp cr2) ∧
    (ctx.vector ≠ DF_VECTOR → ctx.vector ≠ VC_VECTOR →
      stage2_generic_idt_handler ctx cr2 =
        .fatalUnhandled ctx.vector ctx.frame.rip ctx.error_code ∧
      stage2_generic_idt_handler_no_ghcb ctx cr2 =
        .fatalUnhandled ctx.vector ctx.frame.rip ctx.error_code) ∧
    (stage2_generic_idt_handler ctx cr2 = .delegatedVC ↔
      ctx.vector = VC_VECTOR) ∧
    (stage2_generic_idt_handler_no_ghcb ctx cr2 = .delegatedVCNoGhcb ↔
      ctx.vector = VC_VECTOR) := by
  by_cases hd : ctx.vector = DF_VECTOR
  · have hv : ctx.vector ≠ VC_VECTOR := by
      rw [hd]
      decide
    refine ⟨fun _ => ?_, fun hcon _ => absurd hd hcon, ?_, ?_⟩ <;>
      simp [stage2_generic_idt_handler, stage2_generic_idt_handler_no_ghcb,
        hd, hv] <;> decide
  · by_cases hv : ctx.vector = VC_VECTOR
    · refine ⟨fun hcon => absurd hcon hd, fun _ hcon => absurd hv hcon,
        ?_, ?_⟩ <;>
        simp [stage2_generic_idt_handler, stage2_generic_idt_handler_no_ghcb,
          hd, hv] <;> decide
    · refine ⟨fun hcon => absurd hcon hd, fun _ _ => ?_, ?_, ?_⟩ <;>
        simp [stage2_generic_idt_handler, stage2_generic_idt_handler_no_ghcb,
          hd, hv]

/-- Witness for C6: dispatching the synthetic double-fault context `w6Ctx`
produces the fatal double-fault diagnostic in both variants. -/
theorem stage2_dispatch_classification_witness :
    stage2_generic_idt_handler w6Ctx 0xDEAD =
      .fatalDoubleFault w6Ctx.frame.rip w6Ctx.frame.rsp 0xDEAD ∧
    stage2_generic_idt_handler_no_ghcb w6Ctx 0xDEAD =
      .fatalDoubleFault w6Ctx.frame.rip w6Ctx.frame.rsp 0xDEAD :=
  (stage2_dispatch_classification w6Ctx 0xDEAD).1 rfl

/-- C7: whenever the unwind sequence is exhausted within `fuel` iterator
steps, `print_stack skip` logs the start marker, then exactly the items of
the unwind sequence with the first `skip` discarded — rendered as the
instruction pointer for `Valid` frames and a fixed marker for `Invalid` —
then the end marker; and when `skip` is at least the sequence length,
nothing is logged between the two markers. -/
theorem print_stack_skips (m : Memory) (e : ExcSites) (skip rbp : Nat)
    (sb : StacksBounds) (fuel : Nat)
    (hterm : ((StackUnwinder.step m e)^[fuel]
      (StackUnwinder.new m e rbp sb)).next_frame = none) :
    print_stack m e skip rbp sb fuel =
      [LogLine.backtraceStart] ++
        ((StackUnwinder.itemsUpTo m e fuel
          (StackUnwinder.new m e rbp sb)).drop skip).map renderFrame ++
        [LogLine.backtraceEnd] ∧
    ((StackUnwinder.itemsUpTo m e fuel
        (StackUnwinder.new m e rbp sb)).length ≤ skip →
      print_stack m e skip rbp sb fuel =
        [LogLine.backtraceStart, LogLine.backtraceEnd]) := by
  have hterm2 : ((StackUnwinder.step m e)^[fuel]
      ((StackUnwinder.step m e)^[skip]
        (StackUnwinder.new m e rbp sb))).next_frame = none := by
    rw [← Function.iterate_add_apply, Nat.add_comm,
      Function.iterate_add_apply, StackUnwinder.iterate_of_none hterm]
    exact hterm
  have hloop := printLoop_eq_items m e fuel
    ((StackUnwinder.step m e)^[skip] (StackUnwinder.new m e rbp sb)) hterm2
  have hdrop := items_drop m e (fuel + skip) skip
    (StackUnwinder.new m e rbp sb)
  rw [Nat.add_sub_cancel] at hdrop
  have hstable := items_stable m e fuel
    (StackUnwinder.new m e rbp sb) skip hterm
  have hmain : print_stack m e skip rbp sb fuel =
      [LogLine.backtraceStart] ++
        ((StackUnwinder.itemsUpTo m e fuel
          (StackUnwinder.new m e rbp sb)).drop skip).map renderFrame ++
        [LogLine.backtraceEnd] := by
    show [LogLine.backtraceStart] ++
        printLoop m e fuel ((StackUnwinder.step m e)^[skip]
          (StackUnwinder.new m e rbp sb)) ++
        [LogLine.backtraceEnd] = _
    rw [hloop, ← hdrop, hstable]
  refine ⟨hmain, fun hlen => ?_⟩
  rw [hmain, List.drop_eq_nil_of_le hlen]
  rfl

/-- Witness for C7: on zeroed memory from `rbp = 0` the single-item sequence
is printed with no items skipped. -/
theorem print_stack_skips_witness :
    print_stack zeroMem noExc 0 0 cexStacks 1 =
      [LogLine.backtraceStart] ++
        ((StackUnwinder.itemsUpTo zeroMem noExc 1
          (StackUnwinder.new zeroMem noExc 0 cexStacks)).drop 0).map
          renderFrame ++
        [LogLine.backtraceEnd] :=
  (print_stack_skips zeroMem noExc 0 0 cexStacks 1 (by decide)).1

/-- C8: `init_idt` populates every slot `i` of the table with an entry
referencing `handler_array + 32 * i`, preserving the table length, and both
early-init entry points rebuild the global table this way and load exactly
that table into the current CPU's hardware register. -/
theorem idt_table_population (idt : Idt) (base : Nat) (st : CpuIdtState) :
    (init_idt idt base).length = idt.length ∧
    (∀ i (h : i < (init_idt idt base).length),
      (init_idt idt base).get ⟨i, h⟩ = IdtEntry.entry (base + 32 * i)) ∧
    (early_idt_init base st).global_idt = init_idt st.global_idt base ∧
    (early_idt_init base st).loaded_idt = some (init_idt st.global_idt base) ∧
    (early_idt_init_no_ghcb base st).global_idt =
      init_idt st.global_idt base ∧
    (early_idt_init_no_ghcb base st).loaded_idt =
      some (init_idt st.global_idt base) := by
  refine ⟨?_, ?_, rfl, rfl, rfl, rfl⟩
  · simp [init_idt]
  · intro i h
    have h2 : i < idt.length := by simp [init_idt] at h; exact h
    have h3 :=
      List.get_mapIdx idt (fun i _ => IdtEntry.entry (base + 32 * i)) i h2
    simp only [init_idt]
    exact h3

/-- Witness for C8: slot 3 of a populated 32-entry table references the stub
at stride offset 96. -/
theorem idt_table_population_witness :
    (init_idt (List.replicate 32 (IdtEntry.entry 0)) 0x5000).get
      ⟨3, by decide⟩ = IdtEntry.entry (0x5000 + 32 * 3) :=
  (idt_table_population (List.replicate 32 (IdtEntry.entry 0)) 0x5000
    ⟨[], none⟩).2.1 3 (by decide)

/-- C9: across two consecutive `Valid` items whose earlier frame is neither
last nor an exception frame, the later frame's `rsp` equals the earlier
frame's `rbp` plus two pointer widths; if the later frame is also neither
last nor an exception frame, its `rbp` exceeds the earlier one's by at least
16 bytes; and a walk that never yields an exception frame is finite. -/
theorem framepointer_monotonicity (m : Memory) (e : ExcSites)
    (s : StackUnwinder) (f f2 : StackFrame)
    (h : s.next_frame = some (.Valid f)) (hl : f.is_last = false)
    (hx : f.is_exception_frame = false)
    (h2 : (s.step m e).next_frame = some (.Valid f2)) :
    f2.rsp = f.rbp + 2 * PTR_SIZE ∧
    (f2.is_last = false → f2.is_exception_frame = false →
      f.rbp + 2 * PTR_SIZE ≤ f2.rbp ∧ f.rbp < f2.rbp) ∧
    (∀ rbp0, (∀ n g, ((StackUnwinder.step m e)^[n]
        (StackUnwinder.new m e rbp0 s.stackBounds)).next_frame =
          some (.Valid g) → g.is_exception_frame = false) →
      StackUnwinder.Terminates m e
        (StackUnwinder.new m e rbp0 s.stackBounds)) := by
  have hstep := StackUnwinder.step_of_framepointer (m := m) (e := e) h hl hx
  rw [hstep] at h2
  injection h2 with h3
  have hps : PTR_SIZE = 8 := rfl
  rcases StackUnwinder.unwind_framepointer_frame_cases m e f.rbp
      s.stackBounds with hc | hc
  · rw [h3] at hc
    cases hc
  · rw [h3] at hc
    obtain ⟨ha, hb, -, -, -, -, hprog⟩ :=
      StackUnwinder.check_eq_valid_spec hc.symm
    refine ⟨by omega, ?_,
      fun rbp0 hne => terminates_of_no_exception m e rbp0 s.stackBounds hne⟩
    intro hl2 hx2
    have hp2 := hprog hl2 hx2
    omega

/-- Witness for C9 on the concrete chain: the successor frame `w9Frame2`
sits two pointer widths past the earlier frame's `rbp`, and its own `rbp`
lies strictly higher. -/
theorem framepointer_monotonicity_witness :
    w9Frame2.rsp = 0x1200 + 2 * PTR_SIZE ∧
    0x1200 + 2 * PTR_SIZE ≤ w9Frame2.rbp ∧ (0x1200 : Nat) < w9Frame2.rbp := by
  have h := framepointer_monotonicity chainMem noExc chainS
    ⟨0x1200, 0x1110, 0x42, false, false, 0⟩ w9Frame2 rfl rfl rfl (by decide)
  exact ⟨h.1, (h.2.1 rfl rfl).1, (h.2.1 rfl rfl).2⟩

/-- C10: requests whose leading bytes decode as a report request with a
non-zero VMPL field make both report services return an invalid-parameter
error with no request sent to the secure processor; and when the driver
reports a response length below the fixed report-response size, both return
an invalid-request error. -/
theorem report_request_vmpl_and_length_checks (d : GreqDriver)
    (rops : ReportResponseOps) (buffer : List Nat) (certs : List Nat) :
    (∀ req, SnpReportRequest.try_from_as_ref buffer = .ok req →
      req.is_vmpl0 = false →
      get_regular_report d rops buffer = (.error .invalid_parameter, []) ∧
      get_extended_report d rops buffer certs =
        (.error .invalid_parameter, [])) ∧
    (∀ req buf2 len, SnpReportRequest.try_from_as_ref buffer = .ok req →
      req.is_vmpl0 = true →
      d.send_regular_guest_request buffer REPORT_REQUEST_SIZE =
        .ok (buf2, len) →
      len < REPORT_RESPONSE_SIZE →
      get_regular_report d rops buffer =
        (.error .invalid_request, [.regularRequest])) ∧
    (∀ req buf2 len, SnpReportRequest.try_from_as_ref buffer = .ok req →
      req.is_vmpl0 = true →
      d.send_extended_guest_request buffer REPORT_REQUEST_SIZE certs =
        .ok (buf2, len) →
      len < REPORT_RESPONSE_SIZE →
      get_extended_report d rops buffer certs =
        (.error .invalid_request, [.extendedRequest])) := by
  refine ⟨?_, ?_, ?_⟩
  · intro req hreq hv
    constructor <;>
      simp [get_regular_report, get_extended_report, get_report, hreq, hv]
  · intro req buf2 len hreq hv hsend hlen
    simp [get_regular_report, get_report, hreq, hv, hsend,
      get_report_finish, hlen]
  · intro req buf2 len hreq hv hsend hlen
    simp [get_extended_report, get_report, hreq, hv, hsend,
      get_report_finish, hlen]

/-- Witness for C10: the buffer `w10Buffer` (VMPL field 1) is rejected with
an invalid-parameter error by both services, with no driver invocation. -/
theorem report_request_vmpl_and_length_checks_witness :
    get_regular_report w10Driver w10Rops w10Buffer =
      (.error .invalid_parameter, []) ∧
    get_extended_report w10Driver w10Rops w10Buffer [] =
      (.error .invalid_parameter, []) :=
  (report_request_vmpl_and_length_checks w10Driver w10Rops w10Buffer []).1
    ⟨1⟩ rfl rfl
